import Mathlib

/-
Verification development for the OpenMec assembly/constraint engine
(src/src/store/useStore.ts).

Modelling conventions (shallow embedding):

* Scalars are elements of an arbitrary `Field K` (instantiated at `ℚ` for
  concrete evaluations); the JavaScript floating-point numbers are modelled
  by exact field arithmetic.

* The source stores a part's orientation as an Euler triple and converts it
  to a quaternion (`THREE.Quaternion.setFromEuler`) before every use, and
  converts quaternions back to Euler triples (`Euler.setFromQuaternion`)
  before storing them.  Mathematically these conversions are mutually
  inverse on the induced rotation action, so the embedding stores the
  rotation itself, as a 3x3 matrix (`Mat3`) acting on column vectors
  (`Vec3`).  Quaternion multiplication `a.multiply(b)` becomes matrix
  multiplication `a * b`; `applyQuaternion` becomes `Mat3.apply`.

* The only Euler arithmetic in the source is `rotation[2] + angleDelta`
  in `rotatePart`.  For any Euler triple `(x, y, z)` (THREE's default
  intrinsic XYZ order) the rotation of `(x, y, z + d)` equals the rotation
  of `(x, y, z)` composed on the right with a rotation by `d` about the
  local Z axis, so in the embedding `rotatePart` multiplies the stored
  matrix on the right by `rotZ c s`, where `(c, s)` stand for
  `(cos angleDelta, sin angleDelta)`.  The angle argument of `rotatePart`
  is therefore represented by the pair `(c, s)`.

* `Quaternion.invert` is only ever applied to the constant hole rotations
  (identity, or the 90-degree Y rotation of the angle bracket's hole 1),
  which are orthogonal, so inversion is modelled by `Mat3.transpose`.

* `uuidv4()` produces fresh identifiers nondeterministically; the embedding
  takes the generated identifiers as explicit arguments (`screwId`,
  `nutId`, `jointId`, and the id argument of `addPart`).

* `addPart` spreads `props` over the defaulted new part; this is modelled
  by `PartUpdate`, a record of optional field overrides (`updatePart` uses
  the same record).  A TypeScript spread cannot be distinguished from the
  merge modelled here on any field the store reads.
-/

set_option linter.unusedSectionVars false

namespace OpenMec

/-- Part kinds, from the `PartType` union in useStore.ts
(`strip`, `screw`, `nut`, `corner-bracket`, `angle-bracket`). -/
inductive PartType : Type where
  | strip
  | screw
  | nut
  | cornerBracket
  | angleBracket
  deriving DecidableEq, Fintype, Repr

/-- A 3-component vector, modelling `THREE.Vector3`. -/
structure Vec3 (K : Type) : Type where
  x : K
  y : K
  z : K
  deriving DecidableEq, Repr

/-- A 3x3 matrix (row-major entries), modelling the rotation action of a
`THREE.Quaternion` / Euler triple on vectors. -/
structure Mat3 (K : Type) : Type where
  m00 : K
  m01 : K
  m02 : K
  m10 : K
  m11 : K
  m12 : K
  m20 : K
  m21 : K
  m22 : K
  deriving DecidableEq, Repr

variable {K : Type} [Field K]

instance : Zero (Vec3 K) := ⟨⟨0, 0, 0⟩⟩

instance : Add (Vec3 K) := ⟨fun a b => ⟨a.x + b.x, a.y + b.y, a.z + b.z⟩⟩

instance : Neg (Vec3 K) := ⟨fun a => ⟨-a.x, -a.y, -a.z⟩⟩

instance : Sub (Vec3 K) := ⟨fun a b => ⟨a.x - b.x, a.y - b.y, a.z - b.z⟩⟩

instance : SMul K (Vec3 K) := ⟨fun t a => ⟨t * a.x, t * a.y, t * a.z⟩⟩

/-- Matrix-vector application (`v.applyQuaternion(q)` in the source). -/
def Mat3.apply (M : Mat3 K) (v : Vec3 K) : Vec3 K :=
  ⟨M.m00 * v.x + M.m01 * v.y + M.m02 * v.z,
   M.m10 * v.x + M.m11 * v.y + M.m12 * v.z,
   M.m20 * v.x + M.m21 * v.y + M.m22 * v.z⟩

/-- Matrix product (`a.multiply(b)` on quaternions: apply `b` first). -/
def Mat3.mul (A B : Mat3 K) : Mat3 K :=
  ⟨A.m00 * B.m00 + A.m01 * B.m10 + A.m02 * B.m20,
   A.m00 * B.m01 + A.m01 * B.m11 + A.m02 * B.m21,
   A.m00 * B.m02 + A.m01 * B.m12 + A.m02 * B.m22,
   A.m10 * B.m00 + A.m11 * B.m10 + A.m12 * B.m20,
   A.m10 * B.m01 + A.m11 * B.m11 + A.m12 * B.m21,
   A.m10 * B.m02 + A.m11 * B.m12 + A.m12 * B.m22,
   A.m20 * B.m00 + A.m21 * B.m10 + A.m22 * B.m20,
   A.m20 * B.m01 + A.m21 * B.m11 + A.m22 * B.m21,
   A.m20 * B.m02 + A.m21 * B.m12 + A.m22 * B.m22⟩

/-- Transpose; models `Quaternion.invert` on the orthogonal hole rotations. -/
def Mat3.transpose (M : Mat3 K) : Mat3 K :=
  ⟨M.m00, M.m10, M.m20, M.m01, M.m11, M.m21, M.m02, M.m12, M.m22⟩

instance : One (Mat3 K) := ⟨⟨1, 0, 0, 0, 1, 0, 0, 0, 1⟩⟩

/-- Rotation about the Z axis with cosine `c` and sine `s`
(the rotation of the Euler triple `(0, 0, d)` for `c = cos d`, `s = sin d`). -/
def rotZ (c s : K) : Mat3 K :=
  ⟨c, -s, 0, s, c, 0, 0, 0, 1⟩

/-- Rotation of the Euler triple `(0, PI/2, 0)` (90 degrees about Y;
maps the local Z axis to the local X axis), used for the angle bracket's
upright hole. -/
def rotY90 : Mat3 K :=
  ⟨0, 0, 1, 0, 1, 0, -1, 0, 0⟩

/-- `HOLE_SPACING = 12.7` from useStore.ts. -/
def HOLE_SPACING : K := 127 / 10

/-- `THICKNESS = 1` from useStore.ts. -/
def THICKNESS : K := 1

/-- `getHoleOffset` from useStore.ts: local position of hole `index` on a
part of the given type.  Bracket indices outside the listed cases fall
through to the generic strip formula, exactly as in the source. -/
def getHoleOffset (t : PartType) (index : ℕ) : Vec3 K :=
  if t = PartType.cornerBracket ∧ index = 0 then ⟨0, 0, 0⟩
  else if t = PartType.cornerBracket ∧ index = 1 then ⟨HOLE_SPACING, 0, 0⟩
  else if t = PartType.cornerBracket ∧ index = 2 then ⟨0, HOLE_SPACING, 0⟩
  else if t = PartType.angleBracket ∧ index = 0 then ⟨0, 0, 0⟩
  else if t = PartType.angleBracket ∧ index = 1 then
    ⟨HOLE_SPACING / 2, 0, HOLE_SPACING / 2⟩
  else ⟨(index : K) * HOLE_SPACING, 0, 0⟩

/-- `getHoleRotation` from useStore.ts: local orientation of hole `index`
on a part of the given type. -/
def getHoleRotation (t : PartType) (index : ℕ) : Mat3 K :=
  if t = PartType.angleBracket ∧ index = 1 then rotY90 else 1

/-- The `Part` record from useStore.ts (`rotation` stored as its rotation
action, see the module comment). -/
structure Part (K : Type) : Type where
  id : String
  type : PartType
  length : Option ℕ
  position : Vec3 K
  rotation : Mat3 K
  color : Option String
  parentId : Option String
  deriving DecidableEq, Repr

/-- The `Joint` record from useStore.ts (`holeB` optional in the type). -/
structure Joint : Type where
  id : String
  partA : String
  holeA : ℕ
  partB : String
  holeB : Option ℕ
  deriving DecidableEq, Repr

/-- The pending `selectedHole` value. -/
structure HoleRef : Type where
  partId : String
  holeIndex : ℕ
  deriving DecidableEq, Repr

/-- The authoritative store state. -/
structure StoreState (K : Type) : Type where
  parts : List (Part K)
  joints : List Joint
  selectedPartId : Option String
  selectedHole : Option HoleRef
  deriving DecidableEq, Repr

/-- The empty initial state of the store. -/
def initialState : StoreState K :=
  ⟨[], [], none, none⟩

/-- A `Partial<Part>` value: optional overrides for each field. -/
structure PartUpdate (K : Type) : Type where
  id : Option String := none
  type : Option PartType := none
  length : Option ℕ := none
  position : Option (Vec3 K) := none
  rotation : Option (Mat3 K) := none
  color : Option String := none
  parentId : Option String := none
  deriving DecidableEq, Repr

/-- Spread-merge of an update over a part (`{ ...p, ...updates }`). -/
def Part.applyUpdate (p : Part K) (u : PartUpdate K) : Part K :=
  { id := u.id.getD p.id,
    type := u.type.getD p.type,
    length := match u.length with | some n => some n | none => p.length,
    position := u.position.getD p.position,
    rotation := u.rotation.getD p.rotation,
    color := match u.color with | some c => some c | none => p.color,
    parentId := match u.parentId with | some q => some q | none => p.parentId }

/-- Boolean id test used by the `find`/`filter` predicates in the source. -/
def hasId (i : String) (p : Part K) : Bool :=
  decide (p.id = i)

/-- `addPart` from useStore.ts: append a new part with defaulted position
and rotation, spread with `props`; the generated uuid is the `freshId`
argument. -/
def addPart (freshId : String) (t : PartType) (props : PartUpdate K)
    (st : StoreState K) : StoreState K :=
  { st with parts :=
      st.parts ++ [Part.applyUpdate ⟨freshId, t, none, 0, 1, none, none⟩ props] }

/-- `updatePart` from useStore.ts: merge `u` into every part whose id is
`i`. -/
def updatePart (i : String) (u : PartUpdate K) (st : StoreState K) :
    StoreState K :=
  { st with parts := st.parts.map (fun p => if p.id = i then p.applyUpdate u else p) }

/-- `selectPart` from useStore.ts. -/
def selectPart (i : Option String) (st : StoreState K) : StoreState K :=
  { st with selectedPartId := i }

/-- `resetSelection` from useStore.ts. -/
def resetSelection (st : StoreState K) : StoreState K :=
  { st with selectedPartId := none, selectedHole := none }

/-- `clearAll` from useStore.ts. -/
def clearAll (_st : StoreState K) : StoreState K :=
  ⟨[], [], none, none⟩

/-- `removePart` from useStore.ts. -/
def removePart (i : String) (st : StoreState K) : StoreState K :=
  { parts := st.parts.filter (fun p => !hasId i p),
    joints := st.joints.filter (fun j => decide (j.partA ≠ i) && decide (j.partB ≠ i)),
    selectedPartId := if st.selectedPartId = some i then none else st.selectedPartId,
    selectedHole :=
      match st.selectedHole with
      | some sel => if sel.partId = i then none else some sel
      | none => none }

/-- Whether a joint touches the part with the given id
(the predicate of `connectedJoints` and `isAnchored`). -/
def touches (pid : String) (j : Joint) : Bool :=
  decide (j.partA = pid ∨ j.partB = pid)

/-- `isAnchored` from `selectHole`: the part participates in some joint. -/
def anchored (joints : List Joint) (pid : String) : Bool :=
  joints.any (touches pid)

/-- The mover-selection rule of `selectHole` (lines 202-214):
`moveA = !anchoredA && anchoredB`, then the strip tie-break when the
anchoring statuses are equal. -/
def chooseMoveA (anchoredA anchoredB : Bool) (tA tB : PartType) : Bool :=
  if anchoredA = anchoredB then
    if tA = PartType.strip ∧ tB ≠ PartType.strip then true else false
  else
    !anchoredA && anchoredB

/-- World position of a hole: part position plus the rotated hole offset
(the `getHoleWorldPos` helper of the source). -/
def getHoleWorldPos (p : Part K) (hIndex : ℕ) : Vec3 K :=
  p.position + Mat3.apply p.rotation (getHoleOffset p.type hIndex)

/-- The data computed by a branch of the snap-assembly algorithm. -/
structure MoveResult (K : Type) : Type where
  moverId : String
  moverPos : Vec3 K
  moverRot : Mat3 K
  interfacePos : Vec3 K
  finalAM : Mat3 K

/-- The move-A branch of `selectHole` (lines 229-287): part A is moved
onto part B's hole. -/
def moveAResult (partA : Part K) (holeAIdx : ℕ) (partB : Part K)
    (holeBIdx : ℕ) : MoveResult K :=
  let posB := getHoleWorldPos partB holeBIdx
  let offsetDist : K :=
    if partB.type = PartType.angleBracket ∧ holeBIdx = 1 then 0 else THICKNESS
  let targetM := Mat3.mul partB.rotation (getHoleRotation partB.type holeBIdx)
  let newAM := Mat3.mul targetM (Mat3.transpose (getHoleRotation partA.type holeAIdx))
  let stackOffset := Mat3.apply newAM ⟨0, 0, -offsetDist⟩
  let holeAOffset := Mat3.apply newAM (getHoleOffset partA.type holeAIdx)
  let newPosA := posB - stackOffset - holeAOffset
  let movedA : Part K := { partA with position := newPosA, rotation := newAM }
  { moverId := partA.id, moverPos := newPosA, moverRot := newAM,
    interfacePos := getHoleWorldPos movedA holeAIdx, finalAM := newAM }

/-- The move-B branch of `selectHole` (lines 289-347): part B is moved
onto part A's hole. -/
def moveBResult (partA : Part K) (holeAIdx : ℕ) (partB : Part K)
    (holeBIdx : ℕ) : MoveResult K :=
  let posA := getHoleWorldPos partA holeAIdx
  let offsetDist : K :=
    if partA.type = PartType.angleBracket ∧ holeAIdx = 1 then 0 else THICKNESS
  let targetM := Mat3.mul partA.rotation (getHoleRotation partA.type holeAIdx)
  let newBM := Mat3.mul targetM (Mat3.transpose (getHoleRotation partB.type holeBIdx))
  let holeBOffset := Mat3.apply newBM (getHoleOffset partB.type holeBIdx)
  let stackOffset := Mat3.apply targetM ⟨0, 0, -offsetDist⟩
  let newPosB := posA + stackOffset - holeBOffset
  { moverId := partB.id, moverPos := newPosB, moverRot := newBM,
    interfacePos := posA, finalAM := partA.rotation }

/-- The assembly step of `selectHole` once both parts were found
(lines 193-393): move one part, add the screw and nut, append the joint,
select part B and clear the pending hole. -/
def assemble (sel : HoleRef) (_partId : String) (holeIndex : ℕ)
    (screwId nutId jointId : String) (partA partB : Part K)
    (st : StoreState K) : StoreState K :=
  let anchoredA := anchored st.joints partA.id
  let anchoredB := anchored st.joints partB.id
  let moveA := chooseMoveA anchoredA anchoredB partA.type partB.type
  let core :=
    if moveA then moveAResult partA sel.holeIndex partB holeIndex
    else moveBResult partA sel.holeIndex partB holeIndex
  let st1 := updatePart core.moverId
    { position := some core.moverPos, rotation := some core.moverRot } st
  let axisM := Mat3.mul core.finalAM (getHoleRotation partA.type sel.holeIndex)
  let normal := Mat3.apply axisM ⟨0, 0, 1⟩
  let screwPart : Part K :=
    ⟨screwId, PartType.screw, none, core.interfacePos - (THICKNESS : K) • normal, axisM,
      none, none⟩
  let nutPart : Part K :=
    ⟨nutId, PartType.nut, none, core.interfacePos + (THICKNESS : K) • normal, axisM,
      none, none⟩
  { parts := st1.parts ++ [screwPart, nutPart],
    joints := st.joints ++ [⟨jointId, partA.id, sel.holeIndex, partB.id, some holeIndex⟩],
    selectedPartId := some partB.id,
    selectedHole := none }

/-- `selectHole` from useStore.ts.  The uuids generated for the screw, nut
and joint are the `screwId`, `nutId`, `jointId` arguments. -/
def selectHole (partId : String) (holeIndex : ℕ)
    (screwId nutId jointId : String) (st : StoreState K) : StoreState K :=
  match st.selectedHole with
  | none => { st with selectedHole := some ⟨partId, holeIndex⟩ }
  | some sel =>
    if sel.partId = partId ∧ sel.holeIndex = holeIndex then
      { st with selectedHole := none }
    else if sel.partId ≠ partId then
      match st.parts.find? (hasId sel.partId), st.parts.find? (hasId partId) with
      | some partA, some partB =>
        assemble sel partId holeIndex screwId nutId jointId partA partB st
      | some _, none => { st with selectedHole := none }
      | none, _ => { st with selectedHole := none }
    else
      { st with selectedHole := some ⟨partId, holeIndex⟩ }

/-- The position/rotation solve of `rotatePart` when the part participates
in exactly one joint and the other part exists (lines 112-171).  `(c, s)`
are the cosine and sine of `angleDelta`. -/
def rotateSolve (i : String) (c s : K) (part otherPart : Part K)
    (joint : Joint) : Vec3 K × Mat3 K :=
  let newRot := Mat3.mul part.rotation (rotZ c s)
  let otherHoleIndex := if joint.partB = i then joint.holeA else joint.holeB.getD 0
  let pivotPos := getHoleWorldPos otherPart otherHoleIndex
  let myHoleIndex := if joint.partB = i then joint.holeB.getD 0 else joint.holeA
  let myHoleOffset := Mat3.apply newRot (getHoleOffset part.type myHoleIndex)
  let offsetDist : K :=
    if otherPart.type = PartType.angleBracket ∧ otherHoleIndex = 1 then 0
    else THICKNESS
  let newPos :=
    if joint.partB = i then
      pivotPos + Mat3.apply otherPart.rotation ⟨0, 0, -offsetDist⟩ - myHoleOffset
    else
      pivotPos - Mat3.apply newRot ⟨0, 0, -offsetDist⟩ - myHoleOffset
  (newPos, newRot)

/-- `rotatePart` from useStore.ts.  `(c, s)` are the cosine and sine of
the `angleDelta` argument (see the module comment). -/
def rotatePart (i : String) (c s : K) (st : StoreState K) : StoreState K :=
  let connectedJoints := st.joints.filter (touches i)
  if 2 ≤ connectedJoints.length then st
  else
    match st.parts.find? (hasId i) with
    | none => st
    | some part =>
      let newRot := Mat3.mul part.rotation (rotZ c s)
      match connectedJoints.head? with
      | some joint =>
        let otherPartId := if joint.partB = i then joint.partA else joint.partB
        match st.parts.find? (hasId otherPartId) with
        | some otherPart =>
          let solved := rotateSolve i c s part otherPart joint
          updatePart i { position := some solved.1, rotation := some solved.2 } st
        | none => updatePart i { rotation := some newRot } st
      | none => updatePart i { rotation := some newRot } st

/-- The command alphabet of the store (its public interface). -/
inductive Cmd (K : Type) : Type where
  | addPart (freshId : String) (t : PartType) (props : PartUpdate K)
  | updatePart (i : String) (u : PartUpdate K)
  | rotatePart (i : String) (c s : K)
  | selectPart (i : Option String)
  | selectHole (partId : String) (holeIndex : ℕ) (screwId nutId jointId : String)
  | resetSelection
  | clearAll
  | removePart (i : String)

/-- Execute one command on the store state. -/
def exec : Cmd K → StoreState K → StoreState K
  | Cmd.addPart freshId t props => addPart freshId t props
  | Cmd.updatePart i u => updatePart i u
  | Cmd.rotatePart i c s => rotatePart i c s
  | Cmd.selectPart i => selectPart i
  | Cmd.selectHole partId holeIndex a b c => selectHole partId holeIndex a b c
  | Cmd.resetSelection => resetSelection
  | Cmd.clearAll => clearAll
  | Cmd.removePart i => removePart i

/-- States reachable from the empty store through the command interface. -/
inductive Reachable : StoreState K → Prop where
  | init : Reachable initialState
  | step (s : StoreState K) (c : Cmd K) : Reachable s → Reachable (exec c s)

/-- Identifier fixture used by concrete states. -/
def idA : String := "a"

/-- Identifier fixture used by concrete states. -/
def idB : String := "b"

/-- Identifier fixture used by concrete states. -/
def idC : String := "c"

/-- Identifier fixture used by concrete states. -/
def idJ1 : String := "j1"

/-- Identifier fixture used by concrete states. -/
def idJ2 : String := "j2"

/-- Identifier fixture used by concrete states. -/
def idS : String := "s"

/-- Identifier fixture used by concrete states. -/
def idN : String := "n"

/-- A 5-hole strip at the origin with identity orientation. -/
def stripA : Part ℚ := ⟨idA, PartType.strip, some 5, ⟨0, 0, 0⟩, 1, none, none⟩

/-- A 3-hole strip at height 5 with identity orientation. -/
def stripB : Part ℚ := ⟨idB, PartType.strip, some 3, ⟨0, 0, 5⟩, 1, none, none⟩

/-- A 3-hole strip far away on the X axis. -/
def stripC : Part ℚ := ⟨idC, PartType.strip, some 3, ⟨100, 0, 0⟩, 1, none, none⟩

/-- An angle bracket at the origin with identity orientation. -/
def bracketA : Part ℚ := ⟨idA, PartType.angleBracket, none, ⟨0, 0, 0⟩, 1, none, none⟩

/-- A joint between `stripB` hole 0 and `stripC` hole 0 (anchors them). -/
def jointBC : Joint := ⟨idJ1, idB, 0, idC, some 0⟩

/-- State with part `a` locked by two joints (to `b` and `c`). -/
def c5state : StoreState ℚ :=
  ⟨[stripA, stripB, stripC],
   [⟨idJ1, idA, 0, idB, some 0⟩, ⟨idJ2, idA, 1, idC, some 0⟩], none, none⟩

/-- State with a single unjoined strip. -/
def c9state : StoreState ℚ := ⟨[stripA], [], none, none⟩

/-- State with a pending hole on a part that is not in the parts list. -/
def c10state : StoreState ℚ := ⟨[stripB], [], none, some ⟨idA, 0⟩⟩

/-- Number of parts of a given type in a list. -/
def countType (t : PartType) (l : List (Part K)) : ℕ :=
  l.countP (fun p => decide (p.type = t))

/-- The mover-selection rule as the specification states it: move `A` when
`A` is unanchored and `B` is anchored; otherwise move `B`; when the
anchoring statuses are equal, move a strip onto a non-strip. -/
def moveASpec (anchoredA anchoredB : Bool) (tA tB : PartType) : Bool :=
  if anchoredA = anchoredB then
    decide (tA = PartType.strip ∧ tB ≠ PartType.strip)
  else
    decide (anchoredA = false ∧ anchoredB = true)

/-- State with two unanchored strips and a pending hole on strip `a`. -/
def c4state : StoreState ℚ := ⟨[stripA, stripB], [], none, some ⟨idA, 0⟩⟩

/-- State with two strips and a pending hole, ready for assembly. -/
def c6state : StoreState ℚ := ⟨[stripA, stripB], [], none, some ⟨idA, 2⟩⟩

/-- A state reached through the command interface: two strips are added
and assembled by two `selectHole` calls. -/
def c7w : StoreState ℚ :=
  exec (Cmd.selectHole idB 0 idS idN idJ1)
    (exec (Cmd.selectHole idA 0 idS idN idJ1)
      (exec (Cmd.addPart idB PartType.strip {})
        (exec (Cmd.addPart idA PartType.strip {}) initialState)))

/-- State with a pending hole 0 on part `b`. -/
def c7pending : StoreState ℚ := ⟨[stripB], [], none, some ⟨idB, 0⟩⟩

/-- Identifier fixture not used by any concrete part. -/
def idX : String := "x"

/-- State for the C2 counterexample: strip `a` is unanchored, strip `b`
is anchored (joint to `c`), a hole on `a` is pending, so clicking a hole
on `b` moves `a` onto `b`. -/
def c2state : StoreState ℚ := ⟨[stripA, stripB, stripC], [jointBC], none, some ⟨idA, 0⟩⟩

/-- A strip oriented by the 90-degree Y rotation, positioned at the
angle bracket's upright hole — the state produced by assembling it onto
`bracketA` hole 1. -/
def stripBY : Part ℚ :=
  ⟨idB, PartType.strip, some 3, ⟨127 / 20, 0, 127 / 20⟩, rotY90, none, none⟩

/-- Post-assembly state: `stripBY` joined (as part B) to `bracketA`'s
upright hole 1. -/
def c3state : StoreState ℚ :=
  ⟨[bracketA, stripBY], [⟨idJ1, idA, 1, idB, some 0⟩], none, none⟩

/-- A strip stacked one thickness below the origin. -/
def stripD : Part ℚ := ⟨idB, PartType.strip, some 3, ⟨0, 0, -1⟩, 1, none, none⟩

/-- A joint from `stripA` hole 0 to `stripD` hole 0. -/
def jAB2 : Joint := ⟨idJ1, idA, 0, idB, some 0⟩

/-- State with `stripD` joined below `stripA`. -/
def c3wstate : StoreState ℚ := ⟨[stripA, stripD], [jAB2], none, none⟩

/-- State for the C1 failing input: an unanchored angle bracket `a` with
its upright hole 1 pending, and an anchored strip `b`; clicking a hole on
`b` moves the bracket onto the strip. -/
def c1state : StoreState ℚ :=
  ⟨[bracketA, stripB, stripC], [jointBC], none, some ⟨idA, 1⟩⟩

/-- Componentwise form of vector addition. -/
theorem Vec3.add_def (a b : Vec3 K) :
    a + b = ⟨a.x + b.x, a.y + b.y, a.z + b.z⟩ := rfl

/-- Componentwise form of vector subtraction. -/
theorem Vec3.sub_def (a b : Vec3 K) :
    a - b = ⟨a.x - b.x, a.y - b.y, a.z - b.z⟩ := rfl

/-- Componentwise form of vector negation. -/
theorem Vec3.neg_def (a : Vec3 K) : -a = ⟨-a.x, -a.y, -a.z⟩ := rfl

/-- Componentwise form of scalar multiplication. -/
theorem Vec3.smul_def (t : K) (a : Vec3 K) :
    t • a = ⟨t * a.x, t * a.y, t * a.z⟩ := rfl

/-- The entries of the identity matrix. -/
theorem Mat3.one_def : (1 : Mat3 K) = ⟨1, 0, 0, 0, 1, 0, 0, 0, 1⟩ := rfl

/-- A part found by id satisfies the id predicate. -/
theorem id_of_find?_some {l : List (Part K)} {i : String} {a : Part K}
    (h : l.find? (hasId i) = some a) : a.id = i := by
  have h2 := List.find?_some h
  simpa [hasId] using h2

/-- `find?` by id commutes with an id-preserving map. -/
theorem find?_map_id {l : List (Part K)} (g : Part K → Part K)
    (hg : ∀ p, (g p).id = p.id) (i : String) :
    (l.map g).find? (hasId i) = (l.find? (hasId i)).map g := by
  induction l with
  | nil => rfl
  | cons p t ih =>
    by_cases hp : p.id = i
    · simp [List.find?, hasId, hg, hp]
    · simp only [List.map_cons, List.find?]
      have hgp : hasId i (g p) = false := by simp [hasId, hg, hp]
      have hpp : hasId i p = false := by simp [hasId, hp]
      rw [hgp, hpp]
      exact ih

/-- A successful `find?` on a prefix succeeds on the concatenation. -/
theorem find?_append_some {α : Type} {l₁ l₂ : List α} {f : α → Bool} {a : α}
    (h : l₁.find? f = some a) : (l₁ ++ l₂).find? f = some a := by
  induction l₁ with
  | nil => simp at h
  | cons p t ih =>
    cases hp : f p with
    | true =>
      rw [List.find?_cons_of_pos _ hp] at h
      rw [List.cons_append, List.find?_cons_of_pos _ hp]
      exact h
    | false =>
      rw [List.find?_cons_of_neg _ (by simp [hp])] at h
      rw [List.cons_append, List.find?_cons_of_neg _ (by simp [hp])]
      exact ih h

/-- Right multiplication by the identity matrix. -/
theorem Mat3.mul_one (M : Mat3 K) : Mat3.mul M 1 = M := by
  cases M
  simp [Mat3.mul, Mat3.one_def]

/-- Applying a matrix to a multiple of the Z basis vector. -/
theorem Mat3.apply_zsmul (M : Mat3 K) (t : K) :
    Mat3.apply M ⟨0, 0, t⟩ = t • Mat3.apply M ⟨0, 0, 1⟩ := by
  cases M
  simp [Mat3.apply, Vec3.smul_def]
  refine ⟨by ring, by ring, by ring⟩

/-- Pulling a negation out of a scalar multiple of a vector. -/
theorem Vec3.neg_smul (t : K) (v : Vec3 K) : (-t) • v = -(t • v) := by
  cases v
  simp [Vec3.smul_def, Vec3.neg_def]

/-- Vector algebra: `(a + b - c) + c = a + b`. -/
theorem Vec3.add_sub_add (a b c : Vec3 K) : (a + b - c) + c = a + b := by
  cases a; cases b; cases c
  simp [Vec3.add_def, Vec3.sub_def]

/-- Vector algebra: `(a - b - c) + c = a - b`. -/
theorem Vec3.sub_sub_add (a b c : Vec3 K) : (a - b - c) + c = a - b := by
  cases a; cases b; cases c
  simp [Vec3.add_def, Vec3.sub_def]

/-- Vector algebra: `a + -b = a - b`. -/
theorem Vec3.add_neg (a b : Vec3 K) : a + -b = a - b := by
  cases a; cases b
  simp [Vec3.add_def, Vec3.sub_def, Vec3.neg_def]
  refine ⟨by ring, by ring, by ring⟩

/-- Unfolding `selectHole` in the assembly case: a hole is pending on a
different part and both parts are found. -/
theorem selectHole_eq_assemble {st : StoreState K} {sel : HoleRef}
    {partId : String} {holeIndex : ℕ} {screwId nutId jointId : String}
    {partA partB : Part K}
    (hsel : st.selectedHole = some sel)
    (hne : sel.partId ≠ partId)
    (hA : st.parts.find? (hasId sel.partId) = some partA)
    (hB : st.parts.find? (hasId partId) = some partB) :
    selectHole partId holeIndex screwId nutId jointId st =
      assemble sel partId holeIndex screwId nutId jointId partA partB st := by
  cases st with
  | mk parts joints selPid selHole =>
    cases selHole with
    | none => simp at hsel
    | some s2 =>
      have hs2 : s2 = sel := by simpa using hsel
      subst hs2
      unfold selectHole
      simp only []
      rw [if_neg (fun hcon => hne hcon.1), if_pos hne]
      simp only at hA hB
      rw [hA, hB]

/-- C5: for a part participating in at least two joints, `rotatePart`
returns the state unchanged for every angle. -/
theorem c5_rotation_lock (st : StoreState K) (i : String) (c s : K)
    (h : 2 ≤ (st.joints.filter (touches i)).length) :
    rotatePart i c s st = st := by
  unfold rotatePart
  simp only [if_pos h]

/-- C5 witness: a concrete doubly-joined part cannot be rotated. -/
theorem c5_rotation_lock_witness :
    2 ≤ (c5state.joints.filter (touches idA)).length ∧
      rotatePart idA 0 1 c5state = c5state :=
  ⟨by decide, c5_rotation_lock c5state idA 0 1 (by decide)⟩

/-- C9: for a part participating in no joint, `rotatePart` only composes
the part's orientation on the right with the local-Z rotation; position
and all other fields are unchanged. -/
theorem c9_free_rotation (st : StoreState K) (i : String) (c s : K)
    (part : Part K)
    (hfree : st.joints.filter (touches i) = [])
    (hfind : st.parts.find? (hasId i) = some part) :
    rotatePart i c s st =
      { st with parts := st.parts.map (fun p =>
          if p.id = i then
            { p with rotation := Mat3.mul part.rotation (rotZ c s) }
          else p) } := by
  unfold rotatePart
  rw [hfree, hfind]
  simp [updatePart, Part.applyUpdate, List.head?]

/-- C9 witness: rotating a concrete unjoined strip changes only its
orientation. -/
theorem c9_free_rotation_witness :
    c9state.joints.filter (touches idA) = [] ∧
      c9state.parts.find? (hasId idA) = some stripA ∧
      rotatePart idA 0 1 c9state =
        { c9state with parts := c9state.parts.map (fun p =>
            if p.id = idA then
              { p with rotation := Mat3.mul stripA.rotation (rotZ 0 1) }
            else p) } :=
  ⟨by decide, by decide,
    c9_free_rotation c9state idA 0 1 stripA (by decide) (by decide)⟩

/-- C10: if a hole is pending on a different part but either part is
missing from the parts list, `selectHole` only clears the pending hole:
no joint, screw or nut is created and no part is moved. -/
theorem c10_missing_part_clears_pending (st : StoreState K) (sel : HoleRef)
    (partId : String) (holeIndex : ℕ) (screwId nutId jointId : String)
    (hsel : st.selectedHole = some sel)
    (hne : sel.partId ≠ partId)
    (hmiss : st.parts.find? (hasId sel.partId) = none ∨
      st.parts.find? (hasId partId) = none) :
    selectHole partId holeIndex screwId nutId jointId st =
      { st with selectedHole := none } := by
  cases st with
  | mk parts joints selPid selHole =>
    cases selHole with
    | none => simp at hsel
    | some s2 =>
      have hs2 : sel = s2 := by simpa using hsel.symm
      subst hs2
      unfold selectHole
      simp only []
      rw [if_neg (fun hcon => hne hcon.1), if_pos hne]
      simp only at hmiss
      rcases hmiss with hm | hm
      · rw [hm]
      · cases hfa : List.find? (hasId sel.partId) parts with
        | none => rfl
        | some pa => rw [hm]

/-- C10 witness: a pending hole on a missing part is cleared without any
other state change. -/
theorem c10_missing_part_clears_pending_witness :
    c10state.selectedHole = some ⟨idA, 0⟩ ∧ idA ≠ idB ∧
      c10state.parts.find? (hasId idA) = none ∧
      selectHole idB 0 idS idN idJ2 c10state =
        { c10state with selectedHole := none } :=
  ⟨rfl, by decide, by decide,
    c10_missing_part_clears_pending c10state ⟨idA, 0⟩ idB 0 idS idN idJ2 rfl
      (by decide) (Or.inl (by decide))⟩

/-- `applyUpdate` with no type override preserves the part type. -/
theorem type_applyUpdate {p : Part K} {u : PartUpdate K} (hu : u.type = none) :
    (p.applyUpdate u).type = p.type := by
  simp [Part.applyUpdate, hu]

/-- `countType` is unchanged by a type-preserving map. -/
theorem countType_map (t : PartType) (g : Part K → Part K)
    (hg : ∀ p, (g p).type = p.type) (l : List (Part K)) :
    countType t (l.map g) = countType t l := by
  induction l with
  | nil => rfl
  | cons p tl ih =>
    simp only [List.map_cons, countType, List.countP_cons, hg] at ih ⊢
    rw [ih]

/-- `countType` distributes over concatenation. -/
theorem countType_append (t : PartType) (l₁ l₂ : List (Part K)) :
    countType t (l₁ ++ l₂) = countType t l₁ + countType t l₂ :=
  List.countP_append _ _ _

/-- A part not matching the updated id is untouched by an update map. -/
theorem mem_map_update_of_ne {l : List (Part K)} {p : Part K} (i : String)
    (u : PartUpdate K) (hp : p ∈ l) (hne : p.id ≠ i) :
    p ∈ l.map (fun q => if q.id = i then q.applyUpdate u else q) := by
  have hfix : (fun q : Part K => if q.id = i then q.applyUpdate u else q) p = p := by
    simp [hne]
  rw [← hfix]
  exact List.mem_map_of_mem _ hp

/-- C6: a successful assembly adds exactly two parts (one screw, one nut)
and exactly one joint. -/
theorem c6_fastener_counts (st : StoreState K) (sel : HoleRef)
    (partId : String) (holeIndex : ℕ) (screwId nutId jointId : String)
    (partA partB : Part K)
    (hsel : st.selectedHole = some sel)
    (hne : sel.partId ≠ partId)
    (hA : st.parts.find? (hasId sel.partId) = some partA)
    (hB : st.parts.find? (hasId partId) = some partB) :
    (selectHole partId holeIndex screwId nutId jointId st).parts.length =
        st.parts.length + 2 ∧
      (selectHole partId holeIndex screwId nutId jointId st).joints.length =
        st.joints.length + 1 ∧
      countType PartType.screw
          (selectHole partId holeIndex screwId nutId jointId st).parts =
        countType PartType.screw st.parts + 1 ∧
      countType PartType.nut
          (selectHole partId holeIndex screwId nutId jointId st).parts =
        countType PartType.nut st.parts + 1 := by
  rw [selectHole_eq_assemble hsel hne hA hB]
  unfold assemble updatePart
  refine ⟨?_, ?_, ?_, ?_⟩
  · simp
  · simp
  · rw [countType_append, countType_map _ _ (fun p => ?_)]
    · simp [countType]
    · by_cases hc : p.id = (if chooseMoveA (anchored st.joints partA.id)
        (anchored st.joints partB.id) partA.type partB.type then
          moveAResult partA sel.holeIndex partB holeIndex
        else moveBResult partA sel.holeIndex partB holeIndex).moverId <;>
        simp [hc, type_applyUpdate]
  · rw [countType_append, countType_map _ _ (fun p => ?_)]
    · simp [countType]
    · by_cases hc : p.id = (if chooseMoveA (anchored st.joints partA.id)
        (anchored st.joints partB.id) partA.type partB.type then
          moveAResult partA sel.holeIndex partB holeIndex
        else moveBResult partA sel.holeIndex partB holeIndex).moverId <;>
        simp [hc, type_applyUpdate]

/-- C6 witness: assembling two concrete strips adds two parts, one screw,
one nut and one joint. -/
theorem c6_fastener_counts_witness :
    (selectHole idB 0 idS idN idJ1 c6state).parts.length =
        c6state.parts.length + 2 ∧
      (selectHole idB 0 idS idN idJ1 c6state).joints.length =
        c6state.joints.length + 1 ∧
      countType PartType.screw (selectHole idB 0 idS idN idJ1 c6state).parts =
        countType PartType.screw c6state.parts + 1 ∧
      countType PartType.nut (selectHole idB 0 idS idN idJ1 c6state).parts =
        countType PartType.nut c6state.parts + 1 :=
  c6_fastener_counts c6state ⟨idA, 2⟩ idB 0 idS idN idJ1 stripA stripB rfl
    (by decide) (by decide) (by decide)

/-- C4: the mover choice of `selectHole` agrees with the specified rule,
and the part chosen as stationary is left in the parts list unchanged by
a successful assembly. -/
theorem c4_mover_selection :
    (∀ (aA aB : Bool) (tA tB : PartType),
        chooseMoveA aA aB tA tB = moveASpec aA aB tA tB) ∧
      ∀ (st : StoreState K) (sel : HoleRef) (partId : String)
        (holeIndex : ℕ) (screwId nutId jointId : String)
        (partA partB : Part K),
        st.selectedHole = some sel → sel.partId ≠ partId →
        st.parts.find? (hasId sel.partId) = some partA →
        st.parts.find? (hasId partId) = some partB →
        ∀ p ∈ st.parts,
          p.id ≠ (if chooseMoveA (anchored st.joints partA.id)
              (anchored st.joints partB.id) partA.type partB.type then
            partA.id else partB.id) →
          p ∈ (selectHole partId holeIndex screwId nutId jointId st).parts := by
  constructor
  · intro aA aB tA tB
    cases aA <;> cases aB <;> cases tA <;> cases tB <;> decide
  · intro st sel partId holeIndex screwId nutId jointId partA partB
      hsel hne hA hB p hp hpid
    rw [selectHole_eq_assemble hsel hne hA hB]
    unfold assemble updatePart
    simp only []
    refine List.mem_append_left _ ?_
    have hmid : (if chooseMoveA (anchored st.joints partA.id)
        (anchored st.joints partB.id) partA.type partB.type then
          moveAResult partA sel.holeIndex partB holeIndex
        else moveBResult partA sel.holeIndex partB holeIndex).moverId =
        (if chooseMoveA (anchored st.joints partA.id)
          (anchored st.joints partB.id) partA.type partB.type then
            partA.id else partB.id) := by
      by_cases hmv : chooseMoveA (anchored st.joints partA.id)
          (anchored st.joints partB.id) partA.type partB.type <;>
        simp [hmv, moveAResult, moveBResult]
    exact mem_map_update_of_ne _ _ hp (by rw [hmid]; exact hpid)

/-- C4 witness: two unanchored strips tie-break to moving part B, and the
stationary part A remains in the list. -/
theorem c4_mover_selection_witness :
    chooseMoveA false false PartType.strip PartType.strip =
        moveASpec false false PartType.strip PartType.strip ∧
      stripA ∈ (selectHole idB 0 idS idN idJ2 c4state).parts :=
  ⟨(@c4_mover_selection ℚ _).1 false false PartType.strip PartType.strip,
    (@c4_mover_selection ℚ _).2 c4state ⟨idA, 0⟩ idB 0 idS idN idJ2 stripA stripB
      rfl (by decide) (by decide) (by decide) stripA (by decide) (by decide)⟩

/-- `rotatePart` never changes the joint list. -/
theorem rotatePart_joints (i : String) (c s : K) (st : StoreState K) :
    (rotatePart i c s st).joints = st.joints := by
  unfold rotatePart updatePart
  dsimp only []
  by_cases hg : 2 ≤ (List.filter (touches i) st.joints).length
  · rw [if_pos hg]
  · rw [if_neg hg]
    split
    · rfl
    · split
      · split
        · rfl
        · rfl
      · rfl

/-- Every joint in the output of `selectHole` either was already present
or connects two distinct parts. -/
theorem selectHole_joints (pid : String) (h : ℕ) (a b c : String)
    (st : StoreState K) :
    ∀ j ∈ (selectHole pid h a b c st).joints,
      j ∈ st.joints ∨ j.partA ≠ j.partB := by
  intro j hj
  cases st with
  | mk parts joints selPid selHole =>
    cases selHole with
    | none =>
      left
      simpa [selectHole] using hj
    | some sel =>
      unfold selectHole at hj
      simp only [] at hj
      by_cases h1 : sel.partId = pid ∧ sel.holeIndex = h
      · rw [if_pos h1] at hj
        left
        exact hj
      · rw [if_neg h1] at hj
        by_cases h2 : sel.partId ≠ pid
        · rw [if_pos h2] at hj
          cases hfa : List.find? (hasId sel.partId) parts with
          | none =>
            rw [hfa] at hj
            left
            exact hj
          | some pa =>
            cases hfb : List.find? (hasId pid) parts with
            | none =>
              rw [hfa, hfb] at hj
              left
              exact hj
            | some pb =>
              rw [hfa, hfb] at hj
              unfold assemble at hj
              simp only [List.mem_append, List.mem_singleton] at hj
              rcases hj with hj | hj
              · left
                exact hj
              · right
                subst hj
                have e1 : pa.id = sel.partId := id_of_find?_some hfa
                have e2 : pb.id = pid := id_of_find?_some hfb
                simpa [e1, e2] using h2
        · rw [if_neg h2] at hj
          left
          exact hj

/-- C7: in every state reachable through the command interface no joint
is a self-joint, and `selectHole` on the pending part with a different
hole merely replaces the pending hole (no joint or part is created). -/
theorem c7_no_self_joint :
    (∀ (st : StoreState K), Reachable st → ∀ j ∈ st.joints, j.partA ≠ j.partB) ∧
      ∀ (st : StoreState K) (pid : String) (hNew hOld : ℕ) (a b c : String),
        st.selectedHole = some ⟨pid, hOld⟩ → hOld ≠ hNew →
        selectHole pid hNew a b c st =
          { st with selectedHole := some ⟨pid, hNew⟩ } := by
  constructor
  · intro st hr
    induction hr with
    | init =>
      intro j hj
      simp [initialState] at hj
    | step s cmd hr ih =>
      intro j hj
      cases cmd with
      | addPart fid t props => exact ih j (by simpa [exec, addPart] using hj)
      | updatePart i u => exact ih j (by simpa [exec, updatePart] using hj)
      | rotatePart i cc ss =>
        refine ih j ?_
        simp only [exec] at hj
        rw [rotatePart_joints i cc ss s] at hj
        exact hj
      | selectPart i => exact ih j (by simpa [exec, selectPart] using hj)
      | selectHole pid hh a b c =>
        simp only [exec] at hj
        rcases selectHole_joints pid hh a b c s j hj with hm | hne2
        · exact ih j hm
        · exact hne2
      | resetSelection => exact ih j (by simpa [exec, resetSelection] using hj)
      | clearAll => simp [exec, clearAll] at hj
      | removePart i =>
        refine ih j ?_
        simp only [exec, removePart] at hj
        exact List.mem_of_mem_filter hj
  · intro st pid hNew hOld a b c hsel hne
    cases st with
    | mk parts joints selPid selHole =>
      cases selHole with
      | none => simp at hsel
      | some s2 =>
        have hs2 : (⟨pid, hOld⟩ : HoleRef) = s2 := by simpa using hsel.symm
        subst hs2
        unfold selectHole
        simp only []
        rw [if_neg (fun hcon => hne hcon.2), if_neg (fun hcon => hcon rfl)]

/-- C7 witness: a state assembled through the command interface has no
self-joint, and re-clicking another hole of the pending part replaces the
pending hole. -/
theorem c7_no_self_joint_witness :
    c7w.joints.all (fun j => decide (j.partA ≠ j.partB)) = true ∧
      selectHole idB 1 idS idN idJ2 c7pending =
        { c7pending with selectedHole := some ⟨idB, 1⟩ } := by
  constructor
  · have hr : Reachable c7w :=
      Reachable.step _ _ (Reachable.step _ _ (Reachable.step _ _
        (Reachable.step _ _ Reachable.init)))
    have hh := (@c7_no_self_joint ℚ _).1 c7w hr
    simp only [List.all_eq_true]
    intro j hj
    exact decide_eq_true (hh j hj)
  · exact (@c7_no_self_joint ℚ _).2 c7pending idB 1 0 idS idN idJ2 rfl (by decide)

/-- C8 counterexample: commands referencing a non-existent part id are not
all no-ops.  `selectPart` records the id unconditionally, `selectHole`
records a pending hole on the missing part, and `removePart` clears a
pending selection that references the missing id. -/
theorem c8_selection_commands_mutate :
    selectPart (some idA) (initialState : StoreState ℚ) ≠ initialState ∧
      selectHole idA 0 idS idN idJ1 (initialState : StoreState ℚ) ≠
        initialState ∧
      removePart idA (selectHole idA 0 idS idN idJ1
          (initialState : StoreState ℚ)) ≠
        selectHole idA 0 idS idN idJ1 (initialState : StoreState ℚ) := by
  refine ⟨?_, ?_, ?_⟩ <;> decide

/-- C8 (amended): `rotatePart` and `updatePart` with a missing part id
leave the state unchanged; `removePart` does so provided no joint or
selection references the missing id; `selectPart` and `selectHole` update
the selection state regardless of part existence. -/
theorem c8_missing_id_noops_amended :
    (∀ (st : StoreState K) (i : String) (c s : K),
        st.parts.find? (hasId i) = none → rotatePart i c s st = st) ∧
      (∀ (st : StoreState K) (i : String) (u : PartUpdate K),
        st.parts.find? (hasId i) = none → updatePart i u st = st) ∧
      (∀ (st : StoreState K) (i : String),
        st.parts.find? (hasId i) = none →
        (∀ j ∈ st.joints, j.partA ≠ i ∧ j.partB ≠ i) →
        st.selectedPartId ≠ some i →
        (∀ sel, st.selectedHole = some sel → sel.partId ≠ i) →
        removePart i st = st) ∧
      (∀ (st : StoreState K) (i : Option String),
        selectPart i st = { st with selectedPartId := i }) ∧
      ∀ (st : StoreState K) (pid : String) (h : ℕ) (a b c : String),
        st.selectedHole = none →
        selectHole pid h a b c st = { st with selectedHole := some ⟨pid, h⟩ } := by
  refine ⟨?_, ?_, ?_, ?_, ?_⟩
  · intro st i c s hfind
    unfold rotatePart
    dsimp only []
    by_cases hg : 2 ≤ (List.filter (touches i) st.joints).length
    · rw [if_pos hg]
    · rw [if_neg hg, hfind]
  · intro st i u hfind
    unfold updatePart
    have hall := List.find?_eq_none.mp hfind
    have hmap : st.parts.map
        (fun p => if p.id = i then p.applyUpdate u else p) = st.parts := by
      calc st.parts.map (fun p => if p.id = i then p.applyUpdate u else p)
          = st.parts.map id := by
            refine List.map_congr_left (fun p hp => ?_)
            have hne : ¬p.id = i := by simpa [hasId] using hall p hp
            simp [hne]
      _ = st.parts := List.map_id _
    rw [hmap]
  · intro st i hfind hjoints hselPid hselHole
    cases st with
    | mk parts joints selPid selHole =>
      unfold removePart
      simp only [StoreState.mk.injEq]
      refine ⟨?_, ?_, ?_, ?_⟩
      · refine List.filter_eq_self.mpr (fun p hp => ?_)
        have hne : ¬p.id = i := by
          simpa [hasId] using List.find?_eq_none.mp hfind p hp
        simp [hasId, hne]
      · refine List.filter_eq_self.mpr (fun j hj => ?_)
        have hh := hjoints j hj
        simp [hh.1, hh.2]
      · rw [if_neg hselPid]
      · cases selHole with
        | none => rfl
        | some sel =>
          show (if sel.partId = i then none else some sel) = some sel
          rw [if_neg (hselHole sel rfl)]
  · intro st i
    rfl
  · intro st pid h a b c hnone
    cases st with
    | mk parts joints selPid selHole =>
      simp only [] at hnone
      subst hnone
      rfl

/-- C8 witness: the amended no-op statements at concrete inputs. -/
theorem c8_missing_id_noops_amended_witness :
    (c10state.parts.find? (hasId idA) = none ∧
        rotatePart idA 0 1 c10state = c10state) ∧
      updatePart idA { color := some idA } c10state = c10state ∧
      removePart idX c4state = c4state ∧
      selectHole idA 3 idS idN idJ1 c9state =
        { c9state with selectedHole := some ⟨idA, 3⟩ } :=
  ⟨⟨by decide, (@c8_missing_id_noops_amended ℚ _).1 c10state idA 0 1 (by decide)⟩,
    (@c8_missing_id_noops_amended ℚ _).2.1 c10state idA _ (by decide),
    (@c8_missing_id_noops_amended ℚ _).2.2.1 c4state idX (by decide)
      (by intro j hj; simp [c4state] at hj) (by decide)
      (by
        intro sel hs
        have hsel : sel = ⟨idA, 0⟩ := by simpa [c4state] using hs.symm
        subst hsel
        decide),
    (@c8_missing_id_noops_amended ℚ _).2.2.2.2 c9state idA 3 idS idN idJ1 rfl⟩

/-- Vector algebra: `(a + b) - a = b`. -/
theorem Vec3.add_sub_cancel_left (a b : Vec3 K) : (a + b) - a = b := by
  cases a; cases b
  simp [Vec3.add_def, Vec3.sub_def]

/-- Vector algebra: `(a - b) - a = -b`. -/
theorem Vec3.sub_sub_cancel_left (a b : Vec3 K) : (a - b) - a = -b := by
  cases a; cases b
  simp [Vec3.sub_def, Vec3.neg_def]

/-- Vector algebra: double negation. -/
theorem Vec3.neg_neg_vec (a : Vec3 K) : - -a = a := by
  cases a
  simp [Vec3.neg_def]

/-- `applyUpdate` with no id override preserves the part id. -/
theorem id_applyUpdate {p : Part K} {u : PartUpdate K} (hu : u.id = none) :
    (p.applyUpdate u).id = p.id := by
  simp [Part.applyUpdate, hu]

/-- `find?` by id through an id-preserving map and an append. -/
theorem find?_map_append {l l2 : List (Part K)} (g : Part K → Part K)
    (hg : ∀ p, (g p).id = p.id) {i : String} {a : Part K}
    (h : l.find? (hasId i) = some a) :
    (l.map g ++ l2).find? (hasId i) = some (g a) := by
  refine find?_append_some ?_
  rw [find?_map_id g hg i, h]
  rfl

/-- C2 (amended): each successful assembly appends a screw at
`interface - THICKNESS * normal` and a nut at
`interface + THICKNESS * normal`, both oriented along the world hole
axis of part A's paired hole — where `interface` is the world position of
hole `hA` on the possibly-moved part A after the assembly.  In the move-B
branch (`chooseMoveA = false`) part A is stationary, so there the
interface is the stationary hole's world position, as the specification
states. -/
theorem c2_fastener_placement_amended (st : StoreState K) (sel : HoleRef)
    (partId : String) (holeIndex : ℕ) (screwId nutId jointId : String)
    (partA partB : Part K)
    (hsel : st.selectedHole = some sel)
    (hne : sel.partId ≠ partId)
    (hA : st.parts.find? (hasId sel.partId) = some partA)
    (hB : st.parts.find? (hasId partId) = some partB) :
    ∃ aPost : Part K,
      (selectHole partId holeIndex screwId nutId jointId st).parts.find?
          (hasId sel.partId) = some aPost ∧
      (selectHole partId holeIndex screwId nutId jointId st).parts.drop
          st.parts.length =
        [⟨screwId, PartType.screw, none,
            getHoleWorldPos aPost sel.holeIndex - (THICKNESS : K) •
              Mat3.apply (Mat3.mul aPost.rotation
                (getHoleRotation aPost.type sel.holeIndex)) ⟨0, 0, 1⟩,
            Mat3.mul aPost.rotation (getHoleRotation aPost.type sel.holeIndex),
            none, none⟩,
          ⟨nutId, PartType.nut, none,
            getHoleWorldPos aPost sel.holeIndex + (THICKNESS : K) •
              Mat3.apply (Mat3.mul aPost.rotation
                (getHoleRotation aPost.type sel.holeIndex)) ⟨0, 0, 1⟩,
            Mat3.mul aPost.rotation (getHoleRotation aPost.type sel.holeIndex),
            none, none⟩] ∧
      (chooseMoveA (anchored st.joints partA.id) (anchored st.joints partB.id)
          partA.type partB.type = false → aPost = partA) := by
  rw [selectHole_eq_assemble hsel hne hA hB]
  unfold assemble updatePart
  dsimp only []
  by_cases hmv : chooseMoveA (anchored st.joints partA.id)
      (anchored st.joints partB.id) partA.type partB.type = true
  · rw [if_pos hmv]
    have hmov : (moveAResult partA sel.holeIndex partB holeIndex).moverId =
        partA.id := rfl
    rw [hmov]
    have hgid : ∀ p : Part K, ((fun q : Part K => if q.id = partA.id then
        q.applyUpdate ⟨none, none, none,
          some (moveAResult partA sel.holeIndex partB holeIndex).moverPos,
          some (moveAResult partA sel.holeIndex partB holeIndex).moverRot,
          none, none⟩ else q) p).id = p.id := by
      intro p
      by_cases hc : p.id = partA.id <;> simp [hc, id_applyUpdate]
    refine ⟨_, find?_map_append _ hgid hA, ?_, ?_⟩
    · have hgpa : (if partA.id = partA.id then
          partA.applyUpdate ⟨none, none, none,
            some (moveAResult partA sel.holeIndex partB holeIndex).moverPos,
            some (moveAResult partA sel.holeIndex partB holeIndex).moverRot,
            none, none⟩ else partA) =
          partA.applyUpdate ⟨none, none, none,
            some (moveAResult partA sel.holeIndex partB holeIndex).moverPos,
            some (moveAResult partA sel.holeIndex partB holeIndex).moverRot,
            none, none⟩ := if_pos rfl
      rw [← List.length_map st.parts, List.drop_left, hgpa]
      rfl
    · intro hcon
      rw [hmv] at hcon
      cases hcon
  · rw [if_neg hmv]
    have hmov : (moveBResult partA sel.holeIndex partB holeIndex).moverId =
        partB.id := rfl
    rw [hmov]
    have hgid : ∀ p : Part K, ((fun q : Part K => if q.id = partB.id then
        q.applyUpdate ⟨none, none, none,
          some (moveBResult partA sel.holeIndex partB holeIndex).moverPos,
          some (moveBResult partA sel.holeIndex partB holeIndex).moverRot,
          none, none⟩ else q) p).id = p.id := by
      intro p
      by_cases hc : p.id = partB.id <;> simp [hc, id_applyUpdate]
    have hne2 : partA.id ≠ partB.id := by
      rw [id_of_find?_some hA, id_of_find?_some hB]
      exact hne
    have hgpa : (if partA.id = partB.id then
        partA.applyUpdate ⟨none, none, none,
          some (moveBResult partA sel.holeIndex partB holeIndex).moverPos,
          some (moveBResult partA sel.holeIndex partB holeIndex).moverRot,
          none, none⟩ else partA) = partA := if_neg hne2
    refine ⟨_, find?_map_append _ hgid hA, ?_, ?_⟩
    · rw [← List.length_map st.parts, List.drop_left, hgpa]
      rfl
    · intro _
      exact hgpa

/-- C2 counterexample: in the move-A branch the screw is not created at
`stationary hole - THICKNESS * normal`.  With strip `a` moved onto the
anchored strip `b` (hole at world position `(0,0,5)`, axis `(0,0,1)`),
the claim puts the screw at `(0,0,4)`, but the code creates it at
`(0,0,5)`. -/
theorem c2_screw_not_at_claimed_position :
    (selectHole idB 0 idS idN idJ2 c2state).parts.map
        (fun p => (p.type, p.position)) =
      [(PartType.strip, ⟨0, 0, 6⟩), (PartType.strip, ⟨0, 0, 5⟩),
        (PartType.strip, ⟨100, 0, 0⟩), (PartType.screw, ⟨0, 0, 5⟩),
        (PartType.nut, ⟨0, 0, 7⟩)] ∧
      getHoleWorldPos stripB 0 - (THICKNESS : ℚ) •
          Mat3.apply (Mat3.mul stripB.rotation
            (getHoleRotation stripB.type 0)) ⟨0, 0, 1⟩ = ⟨0, 0, 4⟩ ∧
      (⟨0, 0, 5⟩ : Vec3 ℚ) ≠ ⟨0, 0, 4⟩ := by
  have hstep : selectHole idB 0 idS idN idJ2 c2state =
      assemble ⟨idA, 0⟩ idB 0 idS idN idJ2 stripA stripB c2state :=
    @selectHole_eq_assemble ℚ _ c2state ⟨idA, 0⟩ idB 0 idS idN idJ2 stripA
      stripB rfl (by decide) (by decide) (by decide)
  refine ⟨?_, ?_, ?_⟩
  · rw [hstep]
    unfold assemble updatePart
    dsimp only []
    rw [if_pos (show chooseMoveA (anchored c2state.joints stripA.id)
        (anchored c2state.joints stripB.id) stripA.type stripB.type = true
      from by decide)]
    simp [c2state, moveAResult, getHoleWorldPos, getHoleOffset,
      getHoleRotation, Part.applyUpdate, Mat3.apply, Mat3.mul, Mat3.transpose,
      Mat3.one_def, rotY90, stripA, stripB, stripC, THICKNESS, HOLE_SPACING,
      Vec3.add_def, Vec3.sub_def, Vec3.smul_def, Vec3.neg_def, Vec3.mk.injEq,
      idA, idB, idC, idS, idN] <;> norm_num
  · simp [getHoleWorldPos, getHoleOffset, getHoleRotation, stripB, idB,
      Mat3.apply, Mat3.mul, Mat3.one_def, THICKNESS, HOLE_SPACING,
      Vec3.add_def, Vec3.sub_def, Vec3.smul_def, Vec3.mk.injEq] <;> norm_num
  · simp [Vec3.mk.injEq] <;> norm_num

/-- C2 witness: the amended fastener-placement statement at a concrete
move-B assembly of two strips. -/
theorem c2_fastener_placement_amended_witness :
    ∃ aPost : Part ℚ,
      (selectHole idB 0 idS idN idJ1 c6state).parts.find?
          (hasId idA) = some aPost ∧
      (selectHole idB 0 idS idN idJ1 c6state).parts.drop
          c6state.parts.length =
        [⟨idS, PartType.screw, none,
            getHoleWorldPos aPost 2 - (THICKNESS : ℚ) •
              Mat3.apply (Mat3.mul aPost.rotation
                (getHoleRotation aPost.type 2)) ⟨0, 0, 1⟩,
            Mat3.mul aPost.rotation (getHoleRotation aPost.type 2),
            none, none⟩,
          ⟨idN, PartType.nut, none,
            getHoleWorldPos aPost 2 + (THICKNESS : ℚ) •
              Mat3.apply (Mat3.mul aPost.rotation
                (getHoleRotation aPost.type 2)) ⟨0, 0, 1⟩,
            Mat3.mul aPost.rotation (getHoleRotation aPost.type 2),
            none, none⟩] ∧
      (chooseMoveA (anchored c6state.joints stripA.id)
          (anchored c6state.joints stripB.id) stripA.type stripB.type =
          false → aPost = stripA) :=
  c2_fastener_placement_amended c6state ⟨idA, 2⟩ idB 0 idS idN idJ1 stripA
    stripB rfl (by decide) (by decide) (by decide)

/-- The position solved by `rotateSolve` when the rotating part is the
joint's part B: its joined hole lands at the pivot hole displaced by the
stacking offset against the pivot hole's world axis. -/
theorem rotateSolve_child (i : String) (c s : K) (part otherPart : Part K)
    (j : Joint) (hb : ℕ) (hchild : j.partB = i) (hholeB : j.holeB = some hb) :
    (rotateSolve i c s part otherPart j).1 +
        Mat3.apply (Mat3.mul part.rotation (rotZ c s))
          (getHoleOffset part.type hb) -
        getHoleWorldPos otherPart j.holeA =
      -((if otherPart.type = PartType.angleBracket ∧ j.holeA = 1 then 0
          else (THICKNESS : K)) •
        Mat3.apply (Mat3.mul otherPart.rotation
          (getHoleRotation otherPart.type j.holeA)) ⟨0, 0, 1⟩) := by
  unfold rotateSolve
  dsimp only []
  simp only [hholeB, Option.getD_some, if_pos hchild]
  rw [Vec3.add_sub_add, Vec3.add_sub_cancel_left]
  by_cases hup : otherPart.type = PartType.angleBracket ∧ j.holeA = 1
  · simp [if_pos hup, Mat3.apply, Vec3.smul_def, Vec3.neg_def, Vec3.mk.injEq]
  · simp only [if_neg hup, getHoleRotation, Mat3.mul_one]
    rw [Mat3.apply_zsmul, Vec3.neg_smul]

/-- The position solved by `rotateSolve` when the rotating part is the
joint's part A: its joined hole lands at the pivot hole displaced by the
stacking offset along the rotating part's own (new) world Z axis. -/
theorem rotateSolve_parent (i : String) (c s : K) (part otherPart : Part K)
    (j : Joint) (hb : ℕ) (hpar : ¬j.partB = i) (hholeB : j.holeB = some hb) :
    (rotateSolve i c s part otherPart j).1 +
        Mat3.apply (Mat3.mul part.rotation (rotZ c s))
          (getHoleOffset part.type j.holeA) -
        getHoleWorldPos otherPart hb =
      (if otherPart.type = PartType.angleBracket ∧ hb = 1 then 0
        else (THICKNESS : K)) •
        Mat3.apply (Mat3.mul part.rotation (rotZ c s)) ⟨0, 0, 1⟩ := by
  unfold rotateSolve
  dsimp only []
  simp only [hholeB, Option.getD_some, if_neg hpar]
  rw [Vec3.sub_sub_add, Vec3.sub_sub_cancel_left]
  by_cases hup : otherPart.type = PartType.angleBracket ∧ hb = 1
  · simp [if_pos hup, Mat3.apply, Vec3.smul_def, Vec3.neg_def, Vec3.mk.injEq]
  · simp only [if_neg hup]
    rw [Mat3.apply_zsmul, Vec3.neg_smul, Vec3.neg_neg_vec]

/-- C3 (amended): rotating a part with exactly one joint composes its
orientation with the local-Z rotation and re-solves its position so that
its joined hole sits at exactly the stacking offset from the pivot hole:
against the pivot hole's world axis when the rotating part is the joint's
part B, and along the rotating part's own world Z axis when it is part A
(in that case the offset direction is not in general a hole axis). -/
theorem c3_constrained_rotation_amended (st : StoreState K) (i : String)
    (c s : K) (part otherPart : Part K) (j : Joint) (hb : ℕ)
    (hjoints : st.joints.filter (touches i) = [j])
    (hfind : st.parts.find? (hasId i) = some part)
    (hother : st.parts.find?
        (hasId (if j.partB = i then j.partA else j.partB)) = some otherPart)
    (hholeB : j.holeB = some hb) :
    ∃ aPost : Part K,
      (rotatePart i c s st).parts.find? (hasId i) = some aPost ∧
      aPost.rotation = Mat3.mul part.rotation (rotZ c s) ∧
      (j.partB = i →
        getHoleWorldPos aPost hb - getHoleWorldPos otherPart j.holeA =
          -((if otherPart.type = PartType.angleBracket ∧ j.holeA = 1 then 0
              else (THICKNESS : K)) •
            Mat3.apply (Mat3.mul otherPart.rotation
              (getHoleRotation otherPart.type j.holeA)) ⟨0, 0, 1⟩)) ∧
      (j.partB ≠ i →
        getHoleWorldPos aPost j.holeA - getHoleWorldPos otherPart hb =
          (if otherPart.type = PartType.angleBracket ∧ hb = 1 then 0
            else (THICKNESS : K)) •
            Mat3.apply aPost.rotation ⟨0, 0, 1⟩) := by
  unfold rotatePart
  dsimp only []
  rw [hjoints]
  rw [if_neg (show ¬(2 ≤ ([j] : List Joint).length) by norm_num)]
  rw [hfind]
  simp only [List.head?_cons]
  rw [hother]
  unfold updatePart
  dsimp only []
  have hpid : part.id = i := id_of_find?_some hfind
  have hgid : ∀ p : Part K, ((fun q : Part K => if q.id = i then
      q.applyUpdate ⟨none, none, none,
        some (rotateSolve i c s part otherPart j).1,
        some (rotateSolve i c s part otherPart j).2, none, none⟩ else q) p).id =
      p.id := by
    intro p
    by_cases hc : p.id = i <;> simp [hc, id_applyUpdate]
  have hfound : (st.parts.map (fun q : Part K => if q.id = i then
      q.applyUpdate ⟨none, none, none,
        some (rotateSolve i c s part otherPart j).1,
        some (rotateSolve i c s part otherPart j).2, none, none⟩ else q)).find?
      (hasId i) = some (part.applyUpdate ⟨none, none, none,
        some (rotateSolve i c s part otherPart j).1,
        some (rotateSolve i c s part otherPart j).2, none, none⟩) := by
    rw [find?_map_id _ hgid i, hfind, Option.map_some']
    rw [if_pos hpid]
  refine ⟨_, hfound, rfl, ?_, ?_⟩
  · intro hchild
    exact rotateSolve_child i c s part otherPart j hb hchild hholeB
  · intro hpar
    exact rotateSolve_parent i c s part otherPart j hb hpar hholeB

/-- C3 witness: the amended statement at a concrete child rotation of two
joined strips. -/
theorem c3_constrained_rotation_amended_witness :
    ∃ aPost : Part ℚ,
      (rotatePart idB 0 1 c3wstate).parts.find? (hasId idB) = some aPost ∧
      aPost.rotation = Mat3.mul stripD.rotation (rotZ 0 1) ∧
      (jAB2.partB = idB →
        getHoleWorldPos aPost 0 - getHoleWorldPos stripA jAB2.holeA =
          -((if stripA.type = PartType.angleBracket ∧ jAB2.holeA = 1 then 0
              else (THICKNESS : ℚ)) •
            Mat3.apply (Mat3.mul stripA.rotation
              (getHoleRotation stripA.type jAB2.holeA)) ⟨0, 0, 1⟩)) ∧
      (jAB2.partB ≠ idB →
        getHoleWorldPos aPost jAB2.holeA - getHoleWorldPos stripA 0 =
          (if stripA.type = PartType.angleBracket ∧ (0 : ℕ) = 1 then 0
            else (THICKNESS : ℚ)) •
            Mat3.apply aPost.rotation ⟨0, 0, 1⟩) :=
  c3_constrained_rotation_amended c3wstate idB 0 1 stripD stripA jAB2 0
    (by decide) (by decide) (by decide) rfl

/-- C3 counterexample: rotating the angle bracket of a bracket-strip
joint (the bracket is part A, joined through its upright hole 1) offsets
the holes along the world Z axis `(0,0,1)`, while both candidate hole
axes — the pivot strip's hole axis and the bracket's own joined-hole
axis — are `(1,0,0)`; the offset is along neither hole axis. -/
theorem c3_rotation_offset_not_along_hole_axis :
    ((rotatePart idA 1 0 c3state).parts.head?).map
        (fun p => getHoleWorldPos p 1 - getHoleWorldPos stripBY 0) =
      some ⟨0, 0, 1⟩ ∧
      (rotatePart idA 1 0 c3state).parts.get? 1 = some stripBY ∧
      Mat3.apply (Mat3.mul stripBY.rotation
        (getHoleRotation stripBY.type 0)) ⟨0, 0, 1⟩ = ⟨1, 0, 0⟩ ∧
      Mat3.apply (Mat3.mul (Mat3.mul bracketA.rotation (rotZ 1 0))
        (getHoleRotation bracketA.type 1)) ⟨0, 0, 1⟩ = ⟨1, 0, 0⟩ ∧
      ¬∃ t : ℚ, (⟨0, 0, 1⟩ : Vec3 ℚ) = t • ⟨1, 0, 0⟩ := by
  refine ⟨?_, ?_, ?_, ?_, ?_⟩
  · unfold rotatePart
    dsimp only []
    rw [show c3state.joints.filter (touches idA) =
        [(⟨idJ1, idA, 1, idB, some 0⟩ : Joint)] from by decide]
    rw [if_neg (show ¬(2 ≤ ([(⟨idJ1, idA, 1, idB, some 0⟩ : Joint)] :
      List Joint).length) from by norm_num)]
    rw [show c3state.parts.find? (hasId idA) = some bracketA from by decide]
    simp only [List.head?_cons]
    simp [c3state, rotateSolve, updatePart, Part.applyUpdate,
      getHoleWorldPos, getHoleOffset, getHoleRotation, Mat3.apply, Mat3.mul,
      Mat3.one_def, rotY90, rotZ, bracketA, stripBY, THICKNESS, HOLE_SPACING,
      Vec3.add_def, Vec3.sub_def, Vec3.smul_def, Vec3.neg_def, Vec3.mk.injEq,
      idA, idB, idJ1, hasId, List.find?] <;> norm_num
  · unfold rotatePart
    dsimp only []
    rw [show c3state.joints.filter (touches idA) =
        [(⟨idJ1, idA, 1, idB, some 0⟩ : Joint)] from by decide]
    rw [if_neg (show ¬(2 ≤ ([(⟨idJ1, idA, 1, idB, some 0⟩ : Joint)] :
      List Joint).length) from by norm_num)]
    rw [show c3state.parts.find? (hasId idA) = some bracketA from by decide]
    simp only [List.head?_cons]
    simp [c3state, updatePart, List.get?, bracketA, stripBY, hasId,
      List.find?, idA, idB, idJ1] <;> norm_num
  · simp [stripBY, getHoleRotation, Mat3.apply, Mat3.mul, Mat3.one_def,
      rotY90, idB, Vec3.mk.injEq] <;> norm_num
  · simp [bracketA, getHoleRotation, Mat3.apply, Mat3.mul, Mat3.one_def,
      rotY90, rotZ, idA, Vec3.mk.injEq] <;> norm_num
  · rintro ⟨t, ht⟩
    simp [Vec3.smul_def, Vec3.mk.injEq] at ht

/-- C1 failing input: the pending hole is the unanchored angle bracket's
upright hole 1 and the clicked hole 1 is on the anchored strip `b`, so
the bracket is moved.  Its hole lands at `(-1,0,0)` from the stationary
hole — a full material thickness perpendicular to the stationary hole's
world axis `(0,0,1)` — instead of lying on that axis, and the stationary
strip `b` itself is unmoved. -/
theorem c1_bracket_mover_breaks_hole_coincidence :
    ((selectHole idB 1 idS idN idJ2 c1state).parts.head?).map
        (fun p => getHoleWorldPos p 1 - getHoleWorldPos stripB 1) =
      some ⟨-1, 0, 0⟩ ∧
      (selectHole idB 1 idS idN idJ2 c1state).parts.get? 1 = some stripB ∧
      Mat3.apply (Mat3.mul stripB.rotation
        (getHoleRotation stripB.type 1)) ⟨0, 0, 1⟩ = ⟨0, 0, 1⟩ ∧
      ¬∃ t : ℚ, (⟨-1, 0, 0⟩ : Vec3 ℚ) = t • ⟨0, 0, 1⟩ := by
  have hstep : selectHole idB 1 idS idN idJ2 c1state =
      assemble ⟨idA, 1⟩ idB 1 idS idN idJ2 bracketA stripB c1state :=
    @selectHole_eq_assemble ℚ _ c1state ⟨idA, 1⟩ idB 1 idS idN idJ2 bracketA
      stripB rfl (by decide) (by decide) (by decide)
  refine ⟨?_, ?_, ?_, ?_⟩
  · rw [hstep]
    unfold assemble updatePart
    dsimp only []
    rw [if_pos (show chooseMoveA (anchored c1state.joints bracketA.id)
        (anchored c1state.joints stripB.id) bracketA.type stripB.type = true
      from by decide)]
    simp [c1state, moveAResult, getHoleWorldPos, getHoleOffset,
      getHoleRotation, Part.applyUpdate, Mat3.apply, Mat3.mul, Mat3.transpose,
      Mat3.one_def, rotY90, bracketA, stripB, stripC, THICKNESS, HOLE_SPACING,
      Vec3.add_def, Vec3.sub_def, Vec3.smul_def, Vec3.neg_def, Vec3.mk.injEq,
      idA, idB, idC, idS, idN] <;> norm_num
  · rw [hstep]
    unfold assemble updatePart
    dsimp only []
    rw [if_pos (show chooseMoveA (anchored c1state.joints bracketA.id)
        (anchored c1state.joints stripB.id) bracketA.type stripB.type = true
      from by decide)]
    simp [c1state, moveAResult, List.get?, bracketA, stripB, stripC,
      Part.applyUpdate, idA, idB, idC] <;> norm_num
  · simp [stripB, getHoleRotation, Mat3.apply, Mat3.mul, Mat3.one_def,
      idB, Vec3.mk.injEq] <;> norm_num
  · rintro ⟨t, ht⟩
    simp [Vec3.smul_def, Vec3.mk.injEq] at ht

end OpenMec
